import Mathlib

/-!
Verification development for the Disco art-style image filter
(`src/lib/disco-filter.ts` and the palette matcher of `src/app/page.tsx`).

The pixel pipeline is embedded shallowly over exact rationals:
JavaScript numbers are modelled as `ℚ` (all arithmetic in the relevant
code paths is exact in `ℚ`), `Math.round` as floor of `q + 1/2`, and
stores into a `Uint8ClampedArray` as clamping round-half-to-even.
Transcendental library calls (`Math.sin`, `Math.exp`, `Math.sqrt`) are
abstracted as oracle parameters `ℚ → ℚ`; every theorem that needs a fact
about them states it as an explicit hypothesis.
-/

namespace Disco

/-- JavaScript `Math.round`: round half towards positive infinity. -/
def jsRound (q : ℚ) : ℤ := ⌊q + 1/2⌋

/-- Round half to even, as performed when a fractional value is stored
into a `Uint8ClampedArray`. -/
def evenRound (q : ℚ) : ℤ :=
  if q - ⌊q⌋ < 1/2 then ⌊q⌋
  else if 1/2 < q - ⌊q⌋ then ⌊q⌋ + 1
  else if ⌊q⌋ % 2 = 0 then ⌊q⌋ else ⌊q⌋ + 1

/-- The value actually stored by an assignment into a `Uint8ClampedArray`
cell: round half to even, clamped to `[0, 255]`. -/
def toByte (q : ℚ) : ℚ := ((max 0 (min 255 (evenRound q)) : ℤ) : ℚ)

/-- JavaScript `x % 1` for the values it is applied to here
(`x - trunc x`, truncation towards zero). -/
def jsModOne (q : ℚ) : ℚ := q - (if q < 0 then ⌈q⌉ else ⌊q⌋)

/-- A rational that is a byte value: a natural number at most 255. -/
def IsByte (q : ℚ) : Prop := ∃ n : ℕ, n ≤ 255 ∧ q = (n : ℚ)

lemma IsByte.nonneg {q : ℚ} (h : IsByte q) : 0 ≤ q := by
  obtain ⟨n, _, rfl⟩ := h; positivity

lemma IsByte.le255 {q : ℚ} (h : IsByte q) : q ≤ 255 := by
  obtain ⟨n, hn, rfl⟩ := h; exact_mod_cast hn

lemma evenRound_intCast (z : ℤ) : evenRound (z : ℚ) = z := by
  simp [evenRound]

lemma toByte_intCast_of_mem {z : ℤ} (h0 : 0 ≤ z) (h255 : z ≤ 255) :
    toByte (z : ℚ) = (z : ℚ) := by
  rw [toByte, evenRound_intCast, min_eq_right h255, max_eq_right h0]

lemma toByte_isByte {q : ℚ} (h : IsByte q) : toByte q = q := by
  obtain ⟨n, hn, rfl⟩ := h
  have h1 : ((n : ℤ) : ℚ) = (n : ℚ) := Int.cast_natCast n
  rw [← h1, toByte_intCast_of_mem (by positivity) (by exact_mod_cast hn)]

lemma jsRound_intCast (z : ℤ) : jsRound (z : ℚ) = z := by
  rw [jsRound, Int.floor_int_add]
  norm_num

/-- Rounding with `jsRound` fixes an integer shifted by less than half a unit. -/
lemma jsRound_int_add (k : ℤ) (d : ℚ) (h1 : -(1/2) ≤ d) (h2 : d < 1/2) :
    jsRound ((k : ℚ) + d) = k := by
  rw [jsRound, add_assoc, Int.floor_int_add]
  have : ⌊d + 1/2⌋ = 0 := by
    rw [Int.floor_eq_zero_iff]
    constructor <;> [linarith; linarith]
  omega

lemma jsRound_le (q : ℚ) : (jsRound q : ℚ) ≤ q + 1/2 := Int.floor_le _

lemma lt_jsRound (q : ℚ) : q - 1/2 < (jsRound q : ℚ) := by
  have h1 := Int.lt_floor_add_one (q + 1/2)
  rw [jsRound]
  linarith

lemma jsRound_nonneg {q : ℚ} (h : 0 ≤ q) : 0 ≤ jsRound q := by
  have h1 := lt_jsRound q
  have h2 : (-1 : ℚ) < (jsRound q : ℚ) := by linarith
  have h3 : (-1 : ℤ) < jsRound q := by exact_mod_cast h2
  omega

/-- An RGBA pixel; channel values are rationals (JavaScript numbers). -/
structure Pixel where
  r : ℚ
  g : ℚ
  b : ℚ
  a : ℚ
deriving DecidableEq

/-- All four channels are byte values, as in a real `ImageData`. -/
def IsBytePix (p : Pixel) : Prop :=
  IsByte p.r ∧ IsByte p.g ∧ IsByte p.b ∧ IsByte p.a

/-- A detected face bounding box (integer pixel rectangle). -/
structure FaceRegion where
  x : ℤ
  y : ℤ
  width : ℤ
  height : ℤ
deriving DecidableEq

/-- First-match containment test used by every stage
(`x >= f.x && x <= f.x + f.width && y >= f.y && y <= f.y + f.height`). -/
def InFace (faces : List FaceRegion) (x y : ℤ) : Prop :=
  ∃ f ∈ faces, f.x ≤ x ∧ x ≤ f.x + f.width ∧ f.y ≤ y ∧ y ≤ f.y + f.height

instance (faces : List FaceRegion) (x y : ℤ) : Decidable (InFace faces x y) :=
  List.decidableBEx _ faces

/-- Coordinate clamp `Math.min(Math.max(v, 0), hi)`. -/
def clampI (v hi : ℤ) : ℤ := min (max v 0) hi

/-- Flat pixel index `y * width + x` (the source multiplies by 4 for the
byte offset; pixels are indexed directly here). -/
def idxAt (w : ℕ) (x y : ℤ) : ℕ := (y * w + x).toNat

/-- Read the pixel at offset `(dx, dy)` from `(x, y)`, with the border
clamping every stage performs. -/
def sample (w h : ℕ) (data : ℕ → Pixel) (x y dx dy : ℤ) : Pixel :=
  data (idxAt w (clampI (x + dx) (w - 1)) (clampI (y + dy) (h - 1)))

/-! ### Posterization (`posterize`, disco-filter.ts) -/

/-- One channel of the posterizer:
`d[idx] = Math.round(Math.round(d[idx] / s) * s)` stored into the
`Uint8ClampedArray`. -/
def quantC (s v : ℚ) : ℚ := toByte ((jsRound ((jsRound (v / s) : ℚ) * s) : ℚ))

/-- The quick skin heuristic of `posterize`:
`r > g && g > b && r - b > 30 && r > 80 && r < 240`. -/
def SkinQuick (p : Pixel) : Prop :=
  p.g < p.r ∧ p.b < p.g ∧ 30 < p.r - p.b ∧ 80 < p.r ∧ p.r < 240

instance (p : Pixel) : Decidable (SkinQuick p) := by
  unfold SkinQuick; infer_instance

/-- Whether a pixel gets the boosted face level count: an explicit face
box, or the quick skin heuristic outside the boxes. -/
def PosterizeClassify (faces : List FaceRegion) (x y : ℤ) (p : Pixel) : Prop :=
  InFace faces x y ∨ SkinQuick p

instance (faces : List FaceRegion) (x y : ℤ) (p : Pixel) :
    Decidable (PosterizeClassify faces x y p) := by
  unfold PosterizeClassify; infer_instance

/-- Quantize all three color channels with the step for `n` levels
(`255 / (n - 1)`), passing alpha through. -/
def posterizeWith (n : ℕ) (p : Pixel) : Pixel :=
  let s : ℚ := 255 / ((n : ℚ) - 1)
  ⟨quantC s p.r, quantC s p.g, quantC s p.b, p.a⟩

/-- Stage `posterize(src, levels, faceRegions)`: per-pixel channel quantization,
with `Math.min(levels + 2, 12)` levels on face/skin pixels. -/
def posterize (w h levels : ℕ) (faces : List FaceRegion) (data : ℕ → Pixel) :
    ℕ → Pixel := fun i =>
  let x : ℤ := ((i % w : ℕ) : ℤ)
  let y : ℤ := ((i / w : ℕ) : ℤ)
  let p := data i
  if PosterizeClassify faces x y p then posterizeWith (min (levels + 2) 12) p
  else posterizeWith levels p

lemma quantC_bounds (n : ℕ) (h2 : 2 ≤ n) (v : ℚ) (h0 : 0 ≤ v) (h255 : v ≤ 255) :
    0 ≤ jsRound ((jsRound (v / (255 / ((n : ℚ) - 1))) : ℚ) * (255 / ((n : ℚ) - 1))) ∧
    jsRound ((jsRound (v / (255 / ((n : ℚ) - 1))) : ℚ) * (255 / ((n : ℚ) - 1))) ≤ 255 := by
  have hn1 : (1 : ℚ) ≤ (n : ℚ) - 1 := by
    have h : (2 : ℚ) ≤ (n : ℚ) := by exact_mod_cast h2
    linarith
  set s : ℚ := 255 / ((n : ℚ) - 1) with hs
  have hspos : (0 : ℚ) < s := by rw [hs]; positivity
  have hts : ((n : ℚ) - 1) * s = 255 := by
    rw [hs]; field_simp
  set k := jsRound (v / s) with hk
  have hk0 : 0 ≤ k := jsRound_nonneg (by positivity)
  have hvt : v / s ≤ (n : ℚ) - 1 := by
    rw [div_le_iff hspos, hts]; exact h255
  have hkub : (k : ℚ) ≤ ((n : ℚ) - 1) + 1/2 := by
    have h := jsRound_le (v / s)
    rw [← hk] at h
    linarith
  have hkt : (k : ℚ) ≤ (n : ℚ) - 1 := by
    have hkint : k < (n : ℤ) := by
      have h : (k : ℚ) < (n : ℚ) := by linarith
      exact_mod_cast h
    have h1 : k ≤ (n : ℤ) - 1 := by omega
    have h : (k : ℚ) ≤ (((n : ℤ) - 1 : ℤ) : ℚ) := by exact_mod_cast h1
    push_cast at h
    linarith
  have hks0 : (0 : ℚ) ≤ (k : ℚ) * s :=
    mul_nonneg (by exact_mod_cast hk0) (le_of_lt hspos)
  have hks : (k : ℚ) * s ≤ 255 := by
    calc (k : ℚ) * s ≤ ((n : ℚ) - 1) * s :=
          mul_le_mul_of_nonneg_right hkt (le_of_lt hspos)
      _ = 255 := hts
  refine ⟨jsRound_nonneg hks0, ?_⟩
  have hub : (jsRound ((k : ℚ) * s) : ℚ) ≤ 255 + 1/2 := by
    have := jsRound_le ((k : ℚ) * s)
    linarith
  have h : jsRound ((k : ℚ) * s) < (256 : ℤ) := by
    have h256 : (jsRound ((k : ℚ) * s) : ℚ) < 256 := by linarith
    exact_mod_cast h256
  omega

/-- On a byte input, the posterizer channel law needs no clamping: the
stored value is exactly `Math.round(Math.round(v / s) * s)`. -/
lemma quantC_eq_raw (n : ℕ) (h2 : 2 ≤ n) (v : ℚ) (h0 : 0 ≤ v) (h255 : v ≤ 255) :
    quantC (255 / ((n : ℚ) - 1)) v =
      ((jsRound ((jsRound (v / (255 / ((n : ℚ) - 1))) : ℚ) * (255 / ((n : ℚ) - 1))) : ℤ) : ℚ) := by
  obtain ⟨hm0, hm255⟩ := quantC_bounds n h2 v h0 h255
  rw [quantC, toByte_intCast_of_mem hm0 hm255]

/-- Requantizing a quantized byte channel with the same step is the
identity: the round-trip error is below half a step. -/
lemma quantC_idem (n : ℕ) (h2 : 2 ≤ n) (h16 : n ≤ 255) (v : ℚ)
    (h0 : 0 ≤ v) (h255 : v ≤ 255) :
    quantC (255 / ((n : ℚ) - 1)) (quantC (255 / ((n : ℚ) - 1)) v) =
      quantC (255 / ((n : ℚ) - 1)) v := by
  have hn1 : (1 : ℚ) ≤ (n : ℚ) - 1 := by
    have h : (2 : ℚ) ≤ (n : ℚ) := by exact_mod_cast h2
    linarith
  have hn255 : (n : ℚ) - 1 ≤ 254 := by
    have h : (n : ℚ) ≤ 255 := by exact_mod_cast h16
    linarith
  set s : ℚ := 255 / ((n : ℚ) - 1) with hs
  have hs1 : (1 : ℚ) < s := by
    rw [hs, lt_div_iff (by linarith)]
    linarith
  obtain ⟨hm0, hm255⟩ := quantC_bounds n h2 v h0 h255
  set k := jsRound (v / s) with hk
  set m := jsRound ((k : ℚ) * s) with hm
  have hq : quantC s v = ((m : ℤ) : ℚ) := quantC_eq_raw n h2 v h0 h255
  rw [hq]
  have hspos : (0 : ℚ) < s := by linarith
  have hm_ub : (m : ℚ) ≤ (k : ℚ) * s + 1/2 := jsRound_le _
  have hm_lb : (k : ℚ) * s - 1/2 < (m : ℚ) := lt_jsRound _
  have hk2 : jsRound ((m : ℚ) / s) = k := by
    have hdecomp : (m : ℚ) / s = (k : ℚ) + ((m : ℚ) - (k : ℚ) * s) / s := by
      field_simp
    rw [hdecomp]
    apply jsRound_int_add
    · rw [le_div_iff hspos]
      linarith
    · rw [div_lt_iff hspos]
      linarith
  rw [quantC, hk2, ← hm, toByte_intCast_of_mem hm0 hm255]

/-- Evaluation helper: compute one posterizer channel from its two
rounding steps. -/
lemma quantC_eval (s v : ℚ) (k m : ℤ) (b : ℚ)
    (hk : ⌊v / s + 1/2⌋ = k) (hm : ⌊(k : ℚ) * s + 1/2⌋ = m)
    (h0 : 0 ≤ m) (h255 : m ≤ 255) (hb : ((m : ℤ) : ℚ) = b) :
    quantC s v = b := by
  simp only [quantC, jsRound]
  rw [hk, hm, toByte_intCast_of_mem h0 h255, hb]

/-- Evaluation helper: posterization of a pixel, channel by channel. -/
lemma posterizeWith_eval (n : ℕ) (p : Pixel) (r1 g1 b1 : ℚ)
    (hr : quantC (255 / ((n : ℚ) - 1)) p.r = r1)
    (hg : quantC (255 / ((n : ℚ) - 1)) p.g = g1)
    (hb : quantC (255 / ((n : ℚ) - 1)) p.b = b1) :
    posterizeWith n p = ⟨r1, g1, b1, p.a⟩ := by
  simp only [posterizeWith]
  rw [hr, hg, hb]

/-- With no face boxes the posterizer branches on the skin heuristic
alone. -/
lemma posterize_nil_apply (w h L : ℕ) (data : ℕ → Pixel) (i : ℕ) :
    posterize w h L [] data i =
      if SkinQuick (data i) then posterizeWith (min (L + 2) 12) (data i)
      else posterizeWith L (data i) := by
  simp [posterize, PosterizeClassify, InFace]

lemma posterizeWith_idem (n : ℕ) (h2 : 2 ≤ n) (h255 : n ≤ 255) (p : Pixel)
    (hp : IsBytePix p) :
    posterizeWith n (posterizeWith n p) = posterizeWith n p := by
  obtain ⟨hr, hg, hb, _⟩ := hp
  simp only [posterizeWith]
  rw [quantC_idem n h2 h255 p.r hr.nonneg hr.le255,
      quantC_idem n h2 h255 p.g hg.nonneg hg.le255,
      quantC_idem n h2 h255 p.b hb.nonneg hb.le255]

/-- C2 (amended): posterization is idempotent at every pixel whose
face/skin classification is unchanged by the first pass. (The skin
heuristic reads the quantized channels, so quantization can flip it and
requantize the pixel with a different step on the second run; the
counterexample `posterize_not_idem` exhibits this.) -/
theorem posterize_idem (w h levels : ℕ) (faces : List FaceRegion) (data : ℕ → Pixel)
    (h3 : 3 ≤ levels) (h16 : levels ≤ 16)
    (hbyte : ∀ j, IsBytePix (data j))
    (hstable : ∀ j, j < w * h →
      (PosterizeClassify faces ((j % w : ℕ) : ℤ) ((j / w : ℕ) : ℤ)
          (posterize w h levels faces data j)
        ↔ PosterizeClassify faces ((j % w : ℕ) : ℤ) ((j / w : ℕ) : ℤ) (data j))) :
    ∀ i, i < w * h →
      posterize w h levels faces (posterize w h levels faces data) i
        = posterize w h levels faces data i := by
  intro i hi
  have hst := hstable i hi
  by_cases hc : PosterizeClassify faces ((i % w : ℕ) : ℤ) ((i / w : ℕ) : ℤ) (data i)
  · have hc2 := hst.mpr hc
    simp only [posterize] at hc2 ⊢
    rw [if_pos hc] at hc2 ⊢
    rw [if_pos hc2]
    exact posterizeWith_idem _ (by omega) (by omega) _ (hbyte i)
  · have hc2 := fun hx => hc (hst.mp hx)
    simp only [posterize] at hc2 ⊢
    rw [if_neg hc] at hc2 ⊢
    rw [if_neg hc2]
    exact posterizeWith_idem _ (by omega) (by omega) _ (hbyte i)

/-- A 1×1 buffer holding the pixel (106, 90, 75): skin-like before
posterization, achromatic after it. -/
def skinFlipBuf : ℕ → Pixel := fun _ => ⟨106, 90, 75, 255⟩

lemma skinQuick_106 : SkinQuick ⟨106, 90, 75, 255⟩ := by
  refine ⟨?_, ?_, ?_, ?_, ?_⟩ <;> norm_num

lemma not_skinQuick_85 : ¬ SkinQuick ⟨85, 85, 85, 255⟩ := by
  rintro ⟨h, _⟩
  norm_num at h

lemma not_skinQuick_0 : ¬ SkinQuick ⟨0, 0, 0, 255⟩ := by
  rintro ⟨h, _⟩
  norm_num at h

/-- C2 counterexample: with 5 levels and no face boxes, (106, 90, 75) is
skin-like and quantizes with the 7-level step to (85, 85, 85), which is
no longer skin-like; the second pass requantizes with the 5-level step
to (64, 64, 64). Posterize is not idempotent. -/
lemma posterize_skinFlipBuf :
    posterize 1 1 5 [] skinFlipBuf 0 = ⟨85, 85, 85, 255⟩ := by
  rw [posterize_nil_apply, if_pos (show SkinQuick (skinFlipBuf 0) from skinQuick_106)]
  refine posterizeWith_eval _ _ 85 85 85 ?_ ?_ ?_ <;>
    refine quantC_eval _ _ 2 85 _ ?_ ?_ ?_ ?_ ?_ <;>
      norm_num [skinFlipBuf, Int.floor_eq_iff]

theorem posterize_not_idem :
    posterize 1 1 5 [] (posterize 1 1 5 [] skinFlipBuf) 0
      ≠ posterize 1 1 5 [] skinFlipBuf 0 := by
  have h1 := posterize_skinFlipBuf
  have h2 : posterize 1 1 5 [] (posterize 1 1 5 [] skinFlipBuf) 0 = ⟨64, 64, 64, 255⟩ := by
    rw [posterize_nil_apply, h1, if_neg not_skinQuick_85]
    refine posterizeWith_eval _ _ 64 64 64 ?_ ?_ ?_ <;>
      refine quantC_eval _ _ 1 64 _ ?_ ?_ ?_ ?_ ?_ <;>
        norm_num [Int.floor_eq_iff]
  rw [h1, h2]
  intro heq
  have hr := congrArg Pixel.r heq
  norm_num at hr

/-- An all-black 1×1 buffer. -/
def zeroBuf : ℕ → Pixel := fun _ => ⟨0, 0, 0, 255⟩

lemma posterize_zeroBuf (j : ℕ) : posterize 1 1 5 [] zeroBuf j = ⟨0, 0, 0, 255⟩ := by
  rw [posterize_nil_apply, if_neg (show ¬ SkinQuick (zeroBuf j) from not_skinQuick_0)]
  refine posterizeWith_eval _ _ 0 0 0 ?_ ?_ ?_ <;>
    refine quantC_eval _ _ 0 0 _ ?_ ?_ ?_ ?_ ?_ <;>
      norm_num [zeroBuf, Int.floor_eq_iff]

/-- Witness for `posterize_idem` at a concrete classification-stable
input. -/
theorem posterize_idem_witness :
    posterize 1 1 5 [] (posterize 1 1 5 [] zeroBuf) 0
      = posterize 1 1 5 [] zeroBuf 0 := by
  refine posterize_idem 1 1 5 [] zeroBuf (by norm_num) (by norm_num) ?_ ?_ 0 (by norm_num)
  · intro j
    exact ⟨⟨0, by norm_num, by norm_num [zeroBuf]⟩, ⟨0, by norm_num, by norm_num [zeroBuf]⟩,
      ⟨0, by norm_num, by norm_num [zeroBuf]⟩, ⟨255, by norm_num, by norm_num [zeroBuf]⟩⟩
  · intro j hj
    rw [posterize_zeroBuf j]
    exact Iff.rfl

/-- C8 (amended): outside face boxes and the skin heuristic the
posterizer channel law is exactly
`output = round(round(value / step) * step)` with `step = 255/(levels-1)`
(face/skin pixels use `min(levels + 2, 12)` levels instead, see the
counterexample); and at 5 levels (step 63.75) the value 128 maps to
exactly 128. -/
theorem posterize_rounding_law :
    (∀ (w h levels : ℕ) (faces : List FaceRegion) (data : ℕ → Pixel) (i : ℕ),
      2 ≤ levels →
      IsBytePix (data i) →
      ¬ PosterizeClassify faces ((i % w : ℕ) : ℤ) ((i / w : ℕ) : ℤ) (data i) →
      (posterize w h levels faces data i).r
          = ((jsRound ((jsRound ((data i).r / (255 / ((levels : ℚ) - 1))) : ℚ)
              * (255 / ((levels : ℚ) - 1))) : ℤ) : ℚ)
        ∧ (posterize w h levels faces data i).g
          = ((jsRound ((jsRound ((data i).g / (255 / ((levels : ℚ) - 1))) : ℚ)
              * (255 / ((levels : ℚ) - 1))) : ℤ) : ℚ)
        ∧ (posterize w h levels faces data i).b
          = ((jsRound ((jsRound ((data i).b / (255 / ((levels : ℚ) - 1))) : ℚ)
              * (255 / ((levels : ℚ) - 1))) : ℤ) : ℚ))
    ∧ posterize 1 1 5 [] (fun _ => ⟨128, 128, 128, 255⟩) 0 = ⟨128, 128, 128, 255⟩ := by
  constructor
  · intro w h levels faces data i h2 hp hcl
    obtain ⟨hr, hg, hb, _⟩ := hp
    simp only [posterize]
    rw [if_neg hcl]
    simp only [posterizeWith]
    exact ⟨quantC_eq_raw levels h2 _ hr.nonneg hr.le255,
      quantC_eq_raw levels h2 _ hg.nonneg hg.le255,
      quantC_eq_raw levels h2 _ hb.nonneg hb.le255⟩
  · rw [posterize_nil_apply, if_neg (show ¬ SkinQuick ⟨128, 128, 128, 255⟩ from by
      rintro ⟨hlt, _⟩; norm_num at hlt)]
    refine posterizeWith_eval _ _ 128 128 128 ?_ ?_ ?_ <;>
      refine quantC_eval _ _ 2 128 _ ?_ ?_ ?_ ?_ ?_ <;>
        norm_num [Int.floor_eq_iff]

/-- C8 counterexample: the skin-like pixel (106, 90, 75) at 5 levels is
quantized with the boosted 7-level step, so its red channel becomes 85,
not the 128 demanded by the plain `step = 255/(levels-1)` law. -/
theorem posterize_rounding_law_counterexample :
    (posterize 1 1 5 [] skinFlipBuf 0).r
      ≠ ((jsRound ((jsRound ((skinFlipBuf 0).r / (255 / ((5 : ℚ) - 1))) : ℚ)
          * (255 / ((5 : ℚ) - 1))) : ℤ) : ℚ) := by
  have hk : ⌊(skinFlipBuf 0).r / (255 / ((5 : ℚ) - 1)) + 1/2⌋ = (2 : ℤ) := by
    norm_num [skinFlipBuf, Int.floor_eq_iff]
  have hm : ⌊((2 : ℤ) : ℚ) * (255 / ((5 : ℚ) - 1)) + 1/2⌋ = (128 : ℤ) := by
    norm_num [Int.floor_eq_iff]
  rw [posterize_skinFlipBuf]
  simp only [jsRound]
  rw [hk, hm]
  norm_num

/-- Witness for the law half of `posterize_rounding_law` at a concrete
non-skin pixel. -/
theorem posterize_rounding_law_witness :
    (posterize 1 1 5 [] zeroBuf 0).r
      = ((jsRound ((jsRound ((zeroBuf 0).r / (255 / (((5 : ℕ) : ℚ) - 1))) : ℚ)
          * (255 / (((5 : ℕ) : ℚ) - 1))) : ℤ) : ℚ) :=
  (posterize_rounding_law.1 1 1 5 [] zeroBuf 0 (by norm_num)
    ⟨⟨0, by norm_num, by norm_num [zeroBuf]⟩, ⟨0, by norm_num, by norm_num [zeroBuf]⟩,
     ⟨0, by norm_num, by norm_num [zeroBuf]⟩, ⟨255, by norm_num, by norm_num [zeroBuf]⟩⟩
    (by rintro (hin | hsk)
        · simp [InFace] at hin
        · exact not_skinQuick_0 hsk)).1

/-! ### Oil paint / Kuwahara-like filter (`oilPaintFilter`, disco-filter.ts) -/

/-- One of the four sampling quadrants (inclusive offset ranges). -/
structure Quad where
  sx : ℤ
  ex : ℤ
  sy : ℤ
  ey : ℤ

/-- The four quadrants, all sharing the center pixel:
top-left, top-right, bottom-left, bottom-right. -/
def quadrants (r : ℤ) : List Quad :=
  [⟨-r, 0, -r, 0⟩, ⟨0, r, -r, 0⟩, ⟨-r, 0, 0, r⟩, ⟨0, r, 0, r⟩]

/-- The offset grid of a quadrant, as (dy, dx) pairs. -/
def quadCells (q : Quad) : Finset (ℤ × ℤ) :=
  Finset.Icc q.sy q.ey ×ˢ Finset.Icc q.sx q.ex

/-- Mean and population variance of one quadrant:
`(varR + varG + varB, avgR, avgG, avgB)`. -/
def quadMeanVar (w h : ℕ) (data : ℕ → Pixel) (x y : ℤ) (q : Quad) :
    ℚ × ℚ × ℚ × ℚ :=
  let cells := quadCells q
  let count : ℚ := (cells.card : ℚ)
  let sR : ℚ := ∑ c ∈ cells, (sample w h data x y c.2 c.1).r
  let sG : ℚ := ∑ c ∈ cells, (sample w h data x y c.2 c.1).g
  let sB : ℚ := ∑ c ∈ cells, (sample w h data x y c.2 c.1).b
  let sR2 : ℚ := ∑ c ∈ cells, (sample w h data x y c.2 c.1).r * (sample w h data x y c.2 c.1).r
  let sG2 : ℚ := ∑ c ∈ cells, (sample w h data x y c.2 c.1).g * (sample w h data x y c.2 c.1).g
  let sB2 : ℚ := ∑ c ∈ cells, (sample w h data x y c.2 c.1).b * (sample w h data x y c.2 c.1).b
  let avgR := sR / count
  let avgG := sG / count
  let avgB := sB / count
  let varR := sR2 / count - avgR * avgR
  let varG := sG2 / count - avgG * avgG
  let varB := sB2 / count - avgB * avgB
  (varR + varG + varB, avgR, avgG, avgB)

/-- Effective oil-paint radius: reduced to
`Math.max(2, Math.floor(radius * 0.6))` inside face boxes. -/
def oilRadiusAt (radius : ℕ) (faces : List FaceRegion) (x y : ℤ) : ℕ :=
  if InFace faces x y then max 2 (Int.toNat ⌊(radius : ℚ) * 0.6⌋) else radius

/-- One step of the minimum-variance scan (initial best variance is
`Infinity`, modelled by `none`; strict `<` keeps the earlier quadrant on
ties). -/
def oilStep (w h : ℕ) (data : ℕ → Pixel) (x y : ℤ)
    (acc : Option (ℚ × ℚ × ℚ × ℚ)) (q : Quad) : Option (ℚ × ℚ × ℚ × ℚ) :=
  let mv := quadMeanVar w h data x y q
  match acc with
  | none => some mv
  | some best => if mv.1 < best.1 then some mv else some best

/-- The minimum-variance scan over the four quadrants; returns the mean
of the winning quadrant. -/
def oilPick (w h : ℕ) (data : ℕ → Pixel) (x y : ℤ) (r : ℕ) : ℚ × ℚ × ℚ :=
  match (quadrants (r : ℤ)).foldl (oilStep w h data x y) none with
  | some best => (best.2.1, best.2.2.1, best.2.2.2)
  | none => (0, 0, 0)

/-- Stage `oilPaintFilter(src, radius, width, height, faceRegions)`. -/
def oilPaintFilter (w h : ℕ) (data : ℕ → Pixel) (radius : ℕ)
    (faces : List FaceRegion) : ℕ → Pixel := fun i =>
  let x : ℤ := ((i % w : ℕ) : ℤ)
  let y : ℤ := ((i / w : ℕ) : ℤ)
  let r := oilRadiusAt radius faces x y
  let best := oilPick w h data x y r
  ⟨toByte best.1, toByte best.2.1, toByte best.2.2, toByte ((data i).a)⟩

lemma oilStep_none (w h : ℕ) (data : ℕ → Pixel) (x y : ℤ) (q : Quad) :
    oilStep w h data x y none q = some (quadMeanVar w h data x y q) := rfl

lemma oilStep_some (w h : ℕ) (data : ℕ → Pixel) (x y : ℤ)
    (best : ℚ × ℚ × ℚ × ℚ) (q : Quad) :
    oilStep w h data x y (some best) q =
      if (quadMeanVar w h data x y q).1 < best.1
      then some (quadMeanVar w h data x y q) else some best := rfl

/-- The clamp `Math.min(Math.max(v, 0), hi)` is the identity on in-range values. -/
lemma clampI_id {v hi : ℤ} (h0 : 0 ≤ v) (hhi : v ≤ hi) : clampI v hi = v := by
  rw [clampI, max_eq_left h0, min_eq_left hhi]

/-- A quadrant whose samples are all the constant pixel `c` has mean `c`
and total variance 0. -/
lemma quadMeanVar_const (w h : ℕ) (data : ℕ → Pixel) (x y : ℤ) (q : Quad) (c : Pixel)
    (hne : (quadCells q).Nonempty)
    (hmem : ∀ p ∈ quadCells q, sample w h data x y p.2 p.1 = c) :
    quadMeanVar w h data x y q = (0, c.r, c.g, c.b) := by
  have hcard : (0 : ℚ) < ((quadCells q).card : ℚ) := by
    exact_mod_cast Finset.card_pos.mpr hne
  have hcne : ((quadCells q).card : ℚ) ≠ 0 := ne_of_gt hcard
  have hR : (∑ p ∈ quadCells q, (sample w h data x y p.2 p.1).r)
      = ((quadCells q).card : ℚ) * c.r := by
    rw [Finset.sum_congr rfl fun p hp => congrArg Pixel.r (hmem p hp),
      Finset.sum_const, nsmul_eq_mul]
  have hG : (∑ p ∈ quadCells q, (sample w h data x y p.2 p.1).g)
      = ((quadCells q).card : ℚ) * c.g := by
    rw [Finset.sum_congr rfl fun p hp => congrArg Pixel.g (hmem p hp),
      Finset.sum_const, nsmul_eq_mul]
  have hB : (∑ p ∈ quadCells q, (sample w h data x y p.2 p.1).b)
      = ((quadCells q).card : ℚ) * c.b := by
    rw [Finset.sum_congr rfl fun p hp => congrArg Pixel.b (hmem p hp),
      Finset.sum_const, nsmul_eq_mul]
  have hR2 : (∑ p ∈ quadCells q,
        (sample w h data x y p.2 p.1).r * (sample w h data x y p.2 p.1).r)
      = ((quadCells q).card : ℚ) * (c.r * c.r) := by
    rw [Finset.sum_congr rfl fun p hp => by rw [hmem p hp], Finset.sum_const, nsmul_eq_mul]
  have hG2 : (∑ p ∈ quadCells q,
        (sample w h data x y p.2 p.1).g * (sample w h data x y p.2 p.1).g)
      = ((quadCells q).card : ℚ) * (c.g * c.g) := by
    rw [Finset.sum_congr rfl fun p hp => by rw [hmem p hp], Finset.sum_const, nsmul_eq_mul]
  have hB2 : (∑ p ∈ quadCells q,
        (sample w h data x y p.2 p.1).b * (sample w h data x y p.2 p.1).b)
      = ((quadCells q).card : ℚ) * (c.b * c.b) := by
    rw [Finset.sum_congr rfl fun p hp => by rw [hmem p hp], Finset.sum_const, nsmul_eq_mul]
  have hdiv : ∀ t : ℚ, ((quadCells q).card : ℚ) * t / ((quadCells q).card : ℚ) = t :=
    fun t => by rw [mul_comm, mul_div_assoc, div_self hcne, mul_one]
  simp only [quadMeanVar, hR, hG, hB, hR2, hG2, hB2, hdiv]
  exact Prod.ext (by ring) rfl

/-- C7: on a neighborhood that is constant equal to `c` (over the
effective, face-adjusted radius), the oil-paint filter returns exactly
`c`: every quadrant has mean `c` and total variance 0, and the strict
minimum scan keeps the first quadrant. -/
theorem oilPaint_const (w h radius : ℕ) (faces : List FaceRegion) (data : ℕ → Pixel)
    (i : ℕ) (c : Pixel) (hi : i < w * h) (hc : IsBytePix c)
    (hconst : ∀ dx dy : ℤ,
      |dx| ≤ ((oilRadiusAt radius faces ((i % w : ℕ) : ℤ) ((i / w : ℕ) : ℤ) : ℕ) : ℤ) →
      |dy| ≤ ((oilRadiusAt radius faces ((i % w : ℕ) : ℤ) ((i / w : ℕ) : ℤ) : ℕ) : ℤ) →
      sample w h data ((i % w : ℕ) : ℤ) ((i / w : ℕ) : ℤ) dx dy = c) :
    oilPaintFilter w h data radius faces i = c := by
  have hw : 0 < w := by
    rcases Nat.eq_zero_or_pos w with h0 | h0
    · subst h0; simp at hi
    · exact h0
  set X : ℤ := ((i % w : ℕ) : ℤ) with hX
  set Y : ℤ := ((i / w : ℕ) : ℤ) with hY
  set R : ℕ := oilRadiusAt radius faces X Y with hR
  have hquad : ∀ q ∈ quadrants (R : ℤ),
      quadMeanVar w h data X Y q = (0, c.r, c.g, c.b) := by
    intro q hq
    have hbounds : -((R : ℕ) : ℤ) ≤ q.sx ∧ q.ex ≤ ((R : ℕ) : ℤ)
        ∧ -((R : ℕ) : ℤ) ≤ q.sy ∧ q.ey ≤ ((R : ℕ) : ℤ)
        ∧ q.sx ≤ 0 ∧ 0 ≤ q.ex ∧ q.sy ≤ 0 ∧ 0 ≤ q.ey := by
      simp only [quadrants, List.mem_cons, List.not_mem_nil, or_false] at hq
      rcases hq with rfl | rfl | rfl | rfl <;>
        refine ⟨?_, ?_, ?_, ?_, ?_, ?_, ?_, ?_⟩ <;> (dsimp only; omega)
    obtain ⟨hb1, hb2, hb3, hb4, hb5, hb6, hb7, hb8⟩ := hbounds
    refine quadMeanVar_const w h data _ _ q c ⟨(0, 0), ?_⟩ ?_
    · simp only [quadCells, Finset.mem_product, Finset.mem_Icc]
      omega
    · rintro ⟨dy, dx⟩ hp
      simp only [quadCells, Finset.mem_product, Finset.mem_Icc] at hp
      exact hconst dx dy (by rw [abs_le]; omega) (by rw [abs_le]; omega)
  have hcenter : data i = c := by
    have hxw : i % w < w := Nat.mod_lt i hw
    have hyh : i / w < h := Nat.div_lt_of_lt_mul hi
    have h00 := hconst 0 0 (by simp) (by simp)
    rw [sample] at h00
    have hclx : clampI (X + 0) ((w : ℤ) - 1) = X := by
      rw [add_zero]
      exact clampI_id (by rw [hX]; positivity) (by rw [hX]; omega)
    have hcly : clampI (Y + 0) ((h : ℤ) - 1) = Y := by
      rw [add_zero]
      exact clampI_id (by rw [hY]; positivity) (by rw [hY]; omega)
    rw [hclx, hcly] at h00
    have hix : idxAt w X Y = i := by
      rw [idxAt, hX, hY]
      have hdm : i / w * w + i % w = i := Nat.div_add_mod' i w
      have hcast : ((i / w : ℕ) : ℤ) * (w : ℤ) + ((i % w : ℕ) : ℤ) = (i : ℤ) := by
        exact_mod_cast hdm
      rw [hcast]
      exact Int.toNat_natCast i
    rw [hix] at h00
    exact h00
  have hq1 := hquad ⟨-(R : ℤ), 0, -(R : ℤ), 0⟩ (by simp [quadrants])
  have hq2 := hquad ⟨0, (R : ℤ), -(R : ℤ), 0⟩ (by simp [quadrants])
  have hq3 := hquad ⟨-(R : ℤ), 0, 0, (R : ℤ)⟩ (by simp [quadrants])
  have hq4 := hquad ⟨0, (R : ℤ), 0, (R : ℤ)⟩ (by simp [quadrants])
  have hfold : (quadrants (R : ℤ)).foldl (oilStep w h data X Y) none
      = some (0, c.r, c.g, c.b) := by
    rw [quadrants, List.foldl_cons, oilStep_none, hq1,
      List.foldl_cons, oilStep_some, hq2, ite_self,
      List.foldl_cons, oilStep_some, hq3, ite_self,
      List.foldl_cons, oilStep_some, hq4, ite_self, List.foldl_nil]
  have hpick : oilPick w h data X Y R = (c.r, c.g, c.b) := by
    unfold oilPick
    rw [hfold]
  obtain ⟨cr, cg, cb, ca⟩ := c
  obtain ⟨hcr, hcg, hcb, hca⟩ := hc
  simp only [oilPaintFilter]
  rw [← hX, ← hY, ← hR, hpick, hcenter]
  dsimp only
  rw [toByte_isByte hcr, toByte_isByte hcg, toByte_isByte hcb, toByte_isByte hca]

/-- Witness for `oilPaint_const` on a constant 1×1 buffer. -/
theorem oilPaint_const_witness :
    oilPaintFilter 1 1 (fun _ => ⟨7, 8, 9, 255⟩) 2 [] 0 = ⟨7, 8, 9, 255⟩ :=
  oilPaint_const 1 1 2 [] (fun _ => ⟨7, 8, 9, 255⟩) 0 ⟨7, 8, 9, 255⟩ (by norm_num)
    ⟨⟨7, by norm_num, by norm_num⟩, ⟨8, by norm_num, by norm_num⟩,
     ⟨9, by norm_num, by norm_num⟩, ⟨255, by norm_num, by norm_num⟩⟩
    (fun dx dy h1 h2 => rfl)

/-! ### Bilateral filter (`bilateralFilter`, disco-filter.ts) -/

/-- The weight of the neighbor at offset `(dx, dy)`:
`exp(-spatialDist/(2*sigmaSpace^2)) * exp(-colorDist/(2*sigmaColor^2))`,
with `Math.exp` abstracted as the oracle `e`. -/
def bilateralWeight (e : ℚ → ℚ) (ss sc : ℚ) (cp np : Pixel) (dx dy : ℤ) : ℚ :=
  e (-((dx * dx + dy * dy : ℤ) : ℚ) / (2 * ss * ss)) *
  e (-((np.r - cp.r) * (np.r - cp.r) + (np.g - cp.g) * (np.g - cp.g)
      + (np.b - cp.b) * (np.b - cp.b)) / (2 * sc * sc))

/-- The `(dy, dx)` offset grid of the bilateral window. -/
def bilateralCells (r : ℕ) : Finset (ℤ × ℤ) :=
  Finset.Icc (-(r : ℤ)) (r : ℤ) ×ˢ Finset.Icc (-(r : ℤ)) (r : ℤ)

/-- Quantity `sumW`: the accumulated weight the output pixel is divided by. -/
def bilateralWeightSum (e : ℚ → ℚ) (w h : ℕ) (data : ℕ → Pixel) (x y : ℤ)
    (r : ℕ) (ss sc : ℚ) : ℚ :=
  ∑ c ∈ bilateralCells r,
    bilateralWeight e ss sc (data (idxAt w x y)) (sample w h data x y c.2 c.1) c.2 c.1

/-- One weighted channel sum (`sumR`, `sumG` or `sumB`). -/
def bilateralChanSum (e : ℚ → ℚ) (w h : ℕ) (data : ℕ → Pixel) (chan : Pixel → ℚ)
    (x y : ℤ) (r : ℕ) (ss sc : ℚ) : ℚ :=
  ∑ c ∈ bilateralCells r,
    chan (sample w h data x y c.2 c.1) *
      bilateralWeight e ss sc (data (idxAt w x y)) (sample w h data x y c.2 c.1) c.2 c.1

/-- Stage `bilateralFilter(src, width, height, radius, sigmaSpace, sigmaColor,
faceRegions)`: face pixels get radius + 1 and sigmaColor * 0.75. -/
def bilateralFilter (e : ℚ → ℚ) (w h : ℕ) (data : ℕ → Pixel) (radius : ℕ)
    (ss sc : ℚ) (faces : List FaceRegion) : ℕ → Pixel := fun i =>
  let x : ℤ := ((i % w : ℕ) : ℤ)
  let y : ℤ := ((i / w : ℕ) : ℤ)
  let r : ℕ := if InFace faces x y then radius + 1 else radius
  let sc2 : ℚ := if InFace faces x y then sc * 0.75 else sc
  ⟨toByte (bilateralChanSum e w h data Pixel.r x y r ss sc2
      / bilateralWeightSum e w h data x y r ss sc2),
   toByte (bilateralChanSum e w h data Pixel.g x y r ss sc2
      / bilateralWeightSum e w h data x y r ss sc2),
   toByte (bilateralChanSum e w h data Pixel.b x y r ss sc2
      / bilateralWeightSum e w h data x y r ss sc2),
   toByte ((data i).a)⟩

/-! ### Separable box blur (`boxBlur`, disco-filter.ts) -/

/-- Horizontal pass (written to the `tmp` clamped array). -/
def boxBlurH (w h : ℕ) (data : ℕ → Pixel) (radius : ℕ) : ℕ → Pixel := fun i =>
  let x : ℤ := ((i % w : ℕ) : ℤ)
  let y : ℤ := ((i / w : ℕ) : ℤ)
  let cells := Finset.Icc (-(radius : ℤ)) (radius : ℤ)
  let count : ℚ := (cells.card : ℚ)
  let sR : ℚ := ∑ dx ∈ cells, (data (idxAt w (clampI (x + dx) (w - 1)) y)).r
  let sG : ℚ := ∑ dx ∈ cells, (data (idxAt w (clampI (x + dx) (w - 1)) y)).g
  let sB : ℚ := ∑ dx ∈ cells, (data (idxAt w (clampI (x + dx) (w - 1)) y)).b
  ⟨toByte (sR / count), toByte (sG / count), toByte (sB / count), toByte ((data i).a)⟩

/-- Vertical pass (reads the `tmp` array, writes the destination). -/
def boxBlurV (w h : ℕ) (tmp : ℕ → Pixel) (radius : ℕ) : ℕ → Pixel := fun i =>
  let x : ℤ := ((i % w : ℕ) : ℤ)
  let y : ℤ := ((i / w : ℕ) : ℤ)
  let cells := Finset.Icc (-(radius : ℤ)) (radius : ℤ)
  let count : ℚ := (cells.card : ℚ)
  let sR : ℚ := ∑ dy ∈ cells, (tmp (idxAt w x (clampI (y + dy) (h - 1)))).r
  let sG : ℚ := ∑ dy ∈ cells, (tmp (idxAt w x (clampI (y + dy) (h - 1)))).g
  let sB : ℚ := ∑ dy ∈ cells, (tmp (idxAt w x (clampI (y + dy) (h - 1)))).b
  ⟨toByte (sR / count), toByte (sG / count), toByte (sB / count), toByte ((tmp i).a)⟩

/-- Stage `boxBlur(src, width, height, radius)`: horizontal then vertical pass. -/
def boxBlur (w h : ℕ) (data : ℕ → Pixel) (radius : ℕ) : ℕ → Pixel :=
  boxBlurV w h (boxBlurH w h data radius) radius

/-! ### Brushstroke simulation (`simulateBrushstrokes`, disco-filter.ts) -/

/-- Stage `simulateBrushstrokes(src, width, height, brushSize)`: interior
pixels are averaged along the gradient-perpendicular direction
(`Math.sqrt` abstracted as the oracle `sq`); border rows and columns are
passed through from the copied source. -/
def simulateBrushstrokes (sq : ℚ → ℚ) (w h : ℕ) (data : ℕ → Pixel)
    (brushSize : ℕ) : ℕ → Pixel := fun i =>
  let x : ℤ := ((i % w : ℕ) : ℤ)
  let y : ℤ := ((i / w : ℕ) : ℤ)
  if 1 ≤ x ∧ x ≤ (w : ℤ) - 2 ∧ 1 ≤ y ∧ y ≤ (h : ℤ) - 2 then
    let pL := data (idxAt w (max 0 (x - 1)) y)
    let pR := data (idxAt w (min ((w : ℤ) - 1) (x + 1)) y)
    let pT := data (idxAt w x (max 0 (y - 1)))
    let pB := data (idxAt w x (min ((h : ℤ) - 1) (y + 1)))
    let gx := (pR.r - pL.r) + (pR.g - pL.g) + (pR.b - pL.b)
    let gy := (pB.r - pT.r) + (pB.g - pT.g) + (pB.b - pT.b)
    let mag := sq (gx * gx + gy * gy) + 0.001
    let dx := -gy / mag
    let dy := gx / mag
    let nx : ℤ → ℤ := fun k => jsRound ((x : ℚ) + dx * k * 0.5)
    let ny : ℤ → ℤ := fun k => jsRound ((y : ℚ) + dy * k * 0.5)
    let cells := (Finset.Icc (-(brushSize : ℤ)) (brushSize : ℤ)).filter fun k =>
      0 ≤ nx k ∧ nx k < (w : ℤ) ∧ 0 ≤ ny k ∧ ny k < (h : ℤ)
    let count : ℚ := (cells.card : ℚ)
    let sR : ℚ := ∑ k ∈ cells, (data (idxAt w (nx k) (ny k))).r
    let sG : ℚ := ∑ k ∈ cells, (data (idxAt w (nx k) (ny k))).g
    let sB : ℚ := ∑ k ∈ cells, (data (idxAt w (nx k) (ny k))).b
    ⟨toByte (sR / count), toByte (sG / count), toByte (sB / count),
     toByte ((data i).a)⟩
  else data i

/-! ### Detail recovery (`applyDetailRecovery`, disco-filter.ts) -/

/-- Stage `applyDetailRecovery(painted, highPassDetail, width, height,
strength, faceRegions)`; `Math.exp` abstracted as the oracle `eO`. -/
def applyDetailRecovery (eO : ℚ → ℚ) (w h : ℕ) (painted : ℕ → Pixel)
    (highPass : ℕ → ℚ) (strength : ℚ) (faces : List FaceRegion) : ℕ → Pixel := fun i =>
  let x : ℤ := ((i % w : ℕ) : ℤ)
  let y : ℤ := ((i / w : ℕ) : ℤ)
  let p := painted i
  let localStrength := if InFace faces x y then min 1 (strength * 1.4) else strength
  let d := highPass i
  let soft := if |d| > 8 then d * (1 - eO (-|d| / 30)) else d * 0.1
  let adj := soft * localStrength
  ⟨toByte (max 0 (min 255 (p.r + adj))),
   toByte (max 0 (min 255 (p.g + adj))),
   toByte (max 0 (min 255 (p.b + adj))), p.a⟩

/-! ### Color grading (`remapColors`, disco-filter.ts) -/

/-- Conversion `rgbToHsl(r, g, b)` — exact rational RGB→HSL conversion. -/
def rgbToHsl (r g b : ℚ) : ℚ × ℚ × ℚ :=
  let r1 := r / 255
  let g1 := g / 255
  let b1 := b / 255
  let mx := max r1 (max g1 b1)
  let mn := min r1 (min g1 b1)
  let l := (mx + mn) / 2
  if mx = mn then (0, 0, l)
  else
    let d := mx - mn
    let s := if l > 1/2 then d / (2 - mx - mn) else d / (mx + mn)
    let hh :=
      if mx = r1 then ((g1 - b1) / d + (if g1 < b1 then (6 : ℚ) else 0)) / 6
      else if mx = g1 then ((b1 - r1) / d + 2) / 6
      else ((r1 - g1) / d + 4) / 6
    (hh, s, l)

/-- The `hue2rgb` helper of `hslToRgb`. -/
def hue2rgb (p q t0 : ℚ) : ℚ :=
  let t1 := if t0 < 0 then t0 + 1 else t0
  let t := if t1 > 1 then t1 - 1 else t1
  if t < 1/6 then p + (q - p) * 6 * t
  else if t < 1/2 then q
  else if t < 2/3 then p + (q - p) * (2/3 - t) * 6
  else p

/-- Conversion `hslToRgb(h, s, l)`, rounding each channel with `Math.round`. -/
def hslToRgb (hh s l : ℚ) : ℚ × ℚ × ℚ :=
  if s = 0 then
    let v : ℚ := (jsRound (l * 255) : ℚ)
    (v, v, v)
  else
    let q := if l < 1/2 then l * (1 + s) else l + s - l * s
    let p := 2 * l - q
    ((jsRound (hue2rgb p q (hh + 1/3) * 255) : ℚ),
     (jsRound (hue2rgb p q hh * 255) : ℚ),
     (jsRound (hue2rgb p q (hh - 1/3) * 255) : ℚ))

/-- The eight hue buckets of the color grader. -/
inductive HueCategory
  | skinWarm
  | yellowGold
  | green
  | tealCyan
  | blue
  | purple
  | magentaPink
  | neutral
deriving DecidableEq

/-- Function `classifyHue(h, s)`: neutral below saturation 0.08, else by hue band. -/
def classifyHue (hh s : ℚ) : HueCategory :=
  if s < 0.08 then .neutral
  else if hh < 0.11 ∨ 0.93 ≤ hh then .skinWarm
  else if hh < 0.17 then .yellowGold
  else if hh < 0.42 then .green
  else if hh < 0.53 then .tealCyan
  else if hh < 0.70 then .blue
  else if hh < 0.83 then .purple
  else .magentaPink

/-- Predicate `isSkinTone(r, g, b, h, s, l)` with its early-false returns folded
into one conjunction. -/
def IsSkinTone (r g b hh s l : ℚ) : Prop :=
  (0.15 ≤ l ∧ l ≤ 0.9) ∧ 0.1 ≤ s ∧ (hh < 0.11 ∨ 0.93 < hh) ∧ g ≤ r ∧ b ≤ r ∧ 10 ≤ r - g

instance (r g b hh s l : ℚ) : Decidable (IsSkinTone r g b hh s l) := by
  unfold IsSkinTone; infer_instance

/-- Function `lerpHue(from, to, t)`: shortest-arc hue interpolation with the
JavaScript `((x % 1) + 1) % 1` wrap. -/
def lerpHue (a b t : ℚ) : ℚ :=
  let d0 := b - a
  let d1 := if d0 > 1/2 then d0 - 1 else d0
  let d := if d1 < -(1/2) then d1 + 1 else d1
  jsModOne (jsModOne (a + d * t) + 1)

/-- The per-pixel body of `remapColors`: hue/saturation/lightness
grading by skin-likeness, lightness band and hue category. -/
def remapPixel (warmth satMod dampen : ℚ) (inF : Prop) [Decidable inF]
    (p : Pixel) : Pixel :=
  let hsl := rgbToHsl p.r p.g p.b
  let h0 := hsl.1
  let s0 := hsl.2.1
  let l0 := hsl.2.2
  let hueCat := classifyHue h0 s0
  let tri : ℚ × ℚ × ℚ :=
    if inF ∨ IsSkinTone p.r p.g p.b h0 s0 l0 then
      let sw := warmth * dampen
      if l0 < 0.25 then (lerpHue h0 0.49 (sw * 0.55), s0 * 0.55 + 0.12, l0)
      else if l0 < 0.4 then
        let t := (l0 - 0.25) / 0.15
        let targetH := lerpHue 0.49 0.03 t
        (lerpHue h0 targetH (sw * 0.48), min 1 (s0 * (0.7 + t * 0.4)), l0)
      else if l0 < 0.65 then (lerpHue h0 0.03 (sw * 0.42), min 1 (s0 * 1.08), l0)
      else if l0 < 0.82 then
        (lerpHue h0 0.07 (sw * 0.38), min 1 (s0 * 0.9), min 1 (l0 * 1.03))
      else (lerpHue h0 0.97 (sw * 0.2), s0 * 0.3, l0)
    else
      if l0 < 0.15 then (lerpHue h0 0.58 (warmth * 0.5), min 1 (s0 * 0.4 + 0.05), l0)
      else if l0 < 0.3 then (lerpHue h0 0.49 (warmth * 0.35), s0 * 0.65, l0)
      else if l0 < 0.65 then
        match hueCat with
        | .skinWarm => (lerpHue h0 0.07 (warmth * 0.3), min 1 (s0 * 1.1 * satMod + 0.05), l0)
        | .yellowGold => (lerpHue h0 0.12 (warmth * 0.2), min 1 (s0 * 1.2 * satMod), l0)
        | .green => (lerpHue h0 0.28 (warmth * 0.25), min 1 (s0 * 0.85 * satMod), l0)
        | .tealCyan => (h0, min 1 (s0 * 1.15 * satMod), l0)
        | .blue => (lerpHue h0 0.49 (warmth * 0.15), min 1 (s0 * 1.1 * satMod), l0)
        | .purple => (lerpHue h0 0.76 (warmth * 0.2), min 1 (s0 * 1.05 * satMod), l0)
        | .magentaPink => (h0, min 1 (s0 * 0.9 * satMod), l0)
        | .neutral => (lerpHue h0 0.07 (warmth * 0.15), min 1 (s0 + 0.05), l0)
      else if l0 < 0.82 then
        match hueCat with
        | .blue => (h0, s0 * (0.7 * satMod), l0)
        | .tealCyan => (h0, s0 * (0.7 * satMod), l0)
        | .green => (lerpHue h0 0.12 (warmth * 0.2), s0 * (0.75 * satMod), l0)
        | _ => (lerpHue h0 0.12 (warmth * 0.35), min 1 (s0 * 0.8 * satMod), l0)
      else (lerpHue h0 0.12 (warmth * 0.2), s0 * 0.25, l0)
  let s1 := tri.2.1 * (satMod * 0.4 + 0.6)
  let h1 := jsModOne (jsModOne tri.1 + 1)
  let s2 := max 0 (min 1 s1)
  let l1 := max 0 (min 1 tri.2.2)
  let rgb := hslToRgb h1 s2 l1
  ⟨toByte rgb.1, toByte rgb.2.1, toByte rgb.2.2, p.a⟩

/-- Stage `remapColors(src, warmth, saturationMod, faceRegions)`: estimates
the face-area ratio, damps the skin shift on close-ups, then grades
every pixel. -/
def remapColors (w h : ℕ) (warmth satMod : ℚ) (faces : List FaceRegion)
    (data : ℕ → Pixel) : ℕ → Pixel := fun i =>
  let faceArea : ℚ := (((faces.map fun f => f.width * f.height).sum : ℤ) : ℚ)
  let share := faceArea / ((w : ℚ) * (h : ℚ))
  let dampen : ℚ := if share > 0.25 then 0.78 else 1
  let x : ℤ := ((i % w : ℕ) : ℤ)
  let y : ℤ := ((i / w : ℕ) : ℤ)
  remapPixel warmth satMod dampen (InFace faces x y) (data i)

/-! ### Edge outlines, canvas texture, vignette (disco-filter.ts) -/

/-- Stage `applyEdges(src, edges, strength, width, height)`: blend a
warmth-dependent dark outline color where the edge value exceeds 0.15. -/
def applyEdges (w h : ℕ) (edges : ℕ → ℚ) (strength : ℚ) (data : ℕ → Pixel) :
    ℕ → Pixel := fun i =>
  let ev := edges i
  if ev > 0.15 then
    let p := data i
    let alpha := min 1 ((ev - 0.15) * 2.5) * strength
    let warmness := (p.r - p.b) / 255
    let oc : ℚ × ℚ × ℚ :=
      if warmness > 0.1 then (45, 28, 18)
      else if warmness < -0.05 then (18, 35, 38)
      else (35, 30, 25)
    ⟨toByte (p.r * (1 - alpha) + oc.1 * alpha),
     toByte (p.g * (1 - alpha) + oc.2.1 * alpha),
     toByte (p.b * (1 - alpha) + oc.2.2 * alpha), p.a⟩
  else data i

/-- Stage `applyCanvasTexture(src, strength)`: additive procedural weave
(`Math.sin` abstracted as the oracle `sinO`). -/
def applyCanvasTexture (sinO : ℚ → ℚ) (w h : ℕ) (strength : ℚ)
    (data : ℕ → Pixel) : ℕ → Pixel := fun i =>
  let x : ℚ := ((i % w : ℕ) : ℚ)
  let y : ℚ := ((i / w : ℕ) : ℚ)
  let threadH := sinO (x * 1.05) * sinO (y * 0.35) * 8
  let threadV := sinO (y * 1.05) * sinO (x * 0.35) * 8
  let weave := (threadH + threadV) * 0.5
  let n1 := sinO (x * 0.08 + y * 0.06) * 6
  let n2 := sinO (x * 0.13 - y * 0.09 + 2.7) * 4
  let tv := (weave + n1 + n2) * strength
  let p := data i
  ⟨toByte (max 0 (min 255 (p.r + tv))), toByte (max 0 (min 255 (p.g + tv))),
   toByte (max 0 (min 255 (p.b + tv))), p.a⟩

/-- Stage `applyVignette(src, width, height, strength)`: radial darkening
(`Math.sqrt` abstracted as the oracle `sq`). -/
def applyVignette (sq : ℚ → ℚ) (w h : ℕ) (strength : ℚ) (data : ℕ → Pixel) :
    ℕ → Pixel := fun i =>
  let x : ℚ := ((i % w : ℕ) : ℚ)
  let y : ℚ := ((i / w : ℕ) : ℚ)
  let cx : ℚ := (w : ℚ) / 2
  let cy : ℚ := (h : ℚ) / 2
  let maxDist := sq (cx * cx + cy * cy)
  let dx := x - cx
  let dy := y - cy
  let dist := sq (dx * dx + dy * dy) / maxDist
  let vig := 1 - dist * dist * strength
  let p := data i
  ⟨toByte (max 0 (p.r * vig)), toByte (max 0 (p.g * vig)),
   toByte (max 0 (p.b * vig)), p.a⟩

/-- C5: the bilateral normalization weight `sumW` is strictly positive
whenever `Math.exp` is (it always is): every sampled neighbor
contributes a product of two positive factors, and the window is
nonempty, so the division `sum / sumW` is never a division by zero. -/
theorem bilateral_weightSum_pos (e : ℚ → ℚ) (w h : ℕ) (data : ℕ → Pixel)
    (x y : ℤ) (r : ℕ) (ss sc : ℚ) (he : ∀ q, 0 < e q) :
    0 < bilateralWeightSum e w h data x y r ss sc := by
  refine Finset.sum_pos (fun c hc => mul_pos (he _) (he _)) ⟨(0, 0), ?_⟩
  simp only [bilateralCells, Finset.mem_product, Finset.mem_Icc]
  omega

/-- Witness for `bilateral_weightSum_pos` with a concrete positive
oracle. -/
theorem bilateral_weightSum_pos_witness :
    0 < bilateralWeightSum (fun _ => 1) 1 1 zeroBuf 0 0 1 8 45 :=
  bilateral_weightSum_pos (fun _ => 1) 1 1 zeroBuf 0 0 1 8 45 (fun _ => one_pos)

/-- C9: vignette with strength 0 is the identity: the factor
`1 - dist^2 * 0` is 1 whatever `Math.sqrt` returns, and storing a byte
value back is lossless. -/
theorem vignette_zero_id (sq : ℚ → ℚ) (w h : ℕ) (data : ℕ → Pixel) (i : ℕ)
    (hp : IsBytePix (data i)) :
    applyVignette sq w h 0 data i = data i := by
  obtain ⟨hr, hg, hb, _⟩ := hp
  simp only [applyVignette, mul_zero, sub_zero, mul_one]
  rw [max_eq_right hr.nonneg, max_eq_right hg.nonneg, max_eq_right hb.nonneg,
    toByte_isByte hr, toByte_isByte hg, toByte_isByte hb]

/-- Witness for `vignette_zero_id` on a concrete buffer. -/
theorem vignette_zero_id_witness :
    applyVignette (fun _ => 0) 1 1 0 zeroBuf 0 = zeroBuf 0 :=
  vignette_zero_id (fun _ => 0) 1 1 zeroBuf 0
    ⟨⟨0, by norm_num, by norm_num [zeroBuf]⟩, ⟨0, by norm_num, by norm_num [zeroBuf]⟩,
     ⟨0, by norm_num, by norm_num [zeroBuf]⟩, ⟨255, by norm_num, by norm_num [zeroBuf]⟩⟩

/-- C4: every pipeline stage except the final compositing leaves the
alpha channel unchanged at every pixel (each stage either copies the
source alpha byte or writes only the color channels of a copy). -/
theorem stages_preserve_alpha (w h : ℕ) (data : ℕ → Pixel) (i : ℕ)
    (hi : i < w * h) (ha : IsByte ((data i).a)) :
    (∀ (e : ℚ → ℚ) (radius : ℕ) (ss sc : ℚ) (faces : List FaceRegion),
      ((bilateralFilter e w h data radius ss sc faces) i).a = (data i).a)
    ∧ (∀ (radius : ℕ) (faces : List FaceRegion),
      ((oilPaintFilter w h data radius faces) i).a = (data i).a)
    ∧ (∀ (sq : ℚ → ℚ) (bs : ℕ),
      ((simulateBrushstrokes sq w h data bs) i).a = (data i).a)
    ∧ (∀ (eO : ℚ → ℚ) (highPass : ℕ → ℚ) (strength : ℚ) (faces : List FaceRegion),
      ((applyDetailRecovery eO w h data highPass strength faces) i).a = (data i).a)
    ∧ (∀ radius : ℕ, ((boxBlur w h data radius) i).a = (data i).a)
    ∧ (∀ (levels : ℕ) (faces : List FaceRegion),
      ((posterize w h levels faces data) i).a = (data i).a)
    ∧ (∀ (warmth satMod : ℚ) (faces : List FaceRegion),
      ((remapColors w h warmth satMod faces data) i).a = (data i).a)
    ∧ (∀ (edges : ℕ → ℚ) (strength : ℚ),
      ((applyEdges w h edges strength data) i).a = (data i).a)
    ∧ (∀ (sinO : ℚ → ℚ) (strength : ℚ),
      ((applyCanvasTexture sinO w h strength data) i).a = (data i).a)
    ∧ (∀ (sq : ℚ → ℚ) (strength : ℚ),
      ((applyVignette sq w h strength data) i).a = (data i).a) := by
  refine ⟨?_, ?_, ?_, ?_, ?_, ?_, ?_, ?_, ?_, ?_⟩
  · intro e radius ss sc faces
    simp only [bilateralFilter]
    exact toByte_isByte ha
  · intro radius faces
    simp only [oilPaintFilter]
    exact toByte_isByte ha
  · intro sq bs
    simp only [simulateBrushstrokes]
    split_ifs with hcond
    · exact toByte_isByte ha
    · rfl
  · intro eO highPass strength faces
    simp only [applyDetailRecovery]
  · intro radius
    simp only [boxBlur, boxBlurV, boxBlurH]
    rw [toByte_isByte ha, toByte_isByte ha]
  · intro levels faces
    simp only [posterize, posterizeWith]
    split_ifs <;> rfl
  · intro warmth satMod faces
    simp only [remapColors, remapPixel]
  · intro edges strength
    simp only [applyEdges]
    split_ifs with hcond <;> rfl
  · intro sinO strength
    simp only [applyCanvasTexture]
  · intro sq strength
    simp only [applyVignette]

/-- Witness for `stages_preserve_alpha`, projected at the posterize
stage on a concrete buffer. -/
theorem stages_preserve_alpha_witness :
    ((posterize 1 1 5 [] zeroBuf) 0).a = (zeroBuf 0).a := by
  have h := stages_preserve_alpha 1 1 zeroBuf 0 (by norm_num)
    ⟨255, by norm_num, by norm_num [zeroBuf]⟩
  exact h.2.2.2.2.2.1 5 []

/-! ### Styled palette matcher (`choosePaletteColorStyled` /
`applyPaletteToImageData`, src/app/page.tsx) -/

/-- Rec. 601 luminance, as used throughout the palette code. -/
def lumOf (r g b : ℚ) : ℚ := 0.299 * r + 0.587 * g + 0.114 * b

/-- Precomputed per-swatch metadata (`PALETTE_META`). -/
structure SwatchMeta where
  lum : ℚ
  warmth : ℚ
deriving DecidableEq

/-- Metadata `lum = 0.299R + 0.587G + 0.114B`, `warmth = R - B` per swatch. -/
def paletteMeta (pal : List (ℚ × ℚ × ℚ)) : List SwatchMeta :=
  pal.map fun c => ⟨lumOf c.1 c.2.1 c.2.2, c.1 - c.2.2⟩

/-- Loop state of the two-nearest scan:
`nearestIdx, secondIdx, nearestDist, secondDist` (`none` = `Infinity`). -/
structure ChooseState where
  nIdx : ℕ
  sIdx : ℕ
  nD : Option ℚ
  sD : Option ℚ
deriving DecidableEq

/-- Comparison `dist < best` where `best` may be the initial `Infinity`. -/
def distLtOpt (d : ℚ) : Option ℚ → Prop
  | none => True
  | some x => d < x

instance (d : ℚ) : (o : Option ℚ) → Decidable (distLtOpt d o)
  | none => isTrue trivial
  | some x => inferInstanceAs (Decidable (d < x))

/-- The matching distance:
`3·(lum-swatch.lum)² + 0.4·ΣchannelDiff² + 0.08·(warmth-desired)²`. -/
def swatchDist (r g b lum desired : ℚ) (c : ℚ × ℚ × ℚ) (m : SwatchMeta) : ℚ :=
  let lumDiff := lum - m.lum
  let lumD := lumDiff * lumDiff * 3.0
  let dr := r - c.1
  let dg := g - c.2.1
  let db := b - c.2.2
  let chromaD := (dr * dr + dg * dg + db * db) * 0.4
  let warmDiff := m.warmth - desired
  let warmD := warmDiff * warmDiff * 0.08
  lumD + chromaD + warmD

/-- One iteration of the two-nearest scan. -/
def chooseStep (r g b lum desired : ℚ) (st : ChooseState)
    (e : ℕ × ((ℚ × ℚ × ℚ) × SwatchMeta)) : ChooseState :=
  let dist := swatchDist r g b lum desired e.2.1 e.2.2
  if distLtOpt dist st.nD then ⟨e.1, st.nIdx, some dist, st.nD⟩
  else if distLtOpt dist st.sD then ⟨st.nIdx, e.1, st.nD, some dist⟩
  else st

/-- Lookup `palette[i]` (indices produced by the scan are always in range). -/
def getSwatch (pal : List (ℚ × ℚ × ℚ)) (i : ℕ) : ℚ × ℚ × ℚ := pal.getD i (0, 0, 0)

/-- Function `choosePaletteColorStyled(r, g, b, palette, meta, seed)`: find the two
nearest swatches; return the nearest outright when
`nearestDist / max(1, secondDist) > 0.88`, else dither to the second
nearest with probability `min(0.5, (0.88 - closeness) * 1.5)` using the
hash draw `|Math.sin(seed * 12.9898) * 43758.5453| % 1` (`Math.sin`
abstracted as the oracle `jsSin`). -/
def choosePaletteColorStyled (jsSin : ℚ → ℚ) (r g b : ℚ)
    (pal : List (ℚ × ℚ × ℚ)) (meta : List SwatchMeta) (seed : ℚ) : ℚ × ℚ × ℚ :=
  let lum := lumOf r g b
  let desired := (lum / 255 - 0.4) * 80
  let st := ((pal.zip meta).enum).foldl (chooseStep r g b lum desired) ⟨0, 0, none, none⟩
  if st.nIdx = st.sIdx then getSwatch pal st.nIdx
  else
    let nD := st.nD.getD 0
    let sD := st.sD.getD 0
    let closeness := nD / max 1 sD
    if closeness > 0.88 then getSwatch pal st.nIdx
    else
      let pseudo := jsModOne |jsSin (seed * 12.9898) * 43758.5453|
      let chance := min 0.5 ((0.88 - closeness) * 1.5)
      if pseudo < chance then getSwatch pal st.sIdx
      else getSwatch pal st.nIdx

/-- Function `applyPaletteToImageData(imageData, paletteKey)`: pixels with alpha
below 8 are skipped; others are replaced by the styled palette match with
the positional seed `i + r*7 + g*13 + b*17` (`i` is the byte offset
`4 * pixel index`). -/
def applyPaletteToImageData (jsSin : ℚ → ℚ) (pal : List (ℚ × ℚ × ℚ))
    (data : ℕ → Pixel) : ℕ → Pixel := fun p =>
  let px := data p
  if px.a < 8 then px
  else
    let seed : ℚ := ((4 * p : ℕ) : ℚ) + px.r * 7 + px.g * 13 + px.b * 17
    let c := choosePaletteColorStyled jsSin px.r px.g px.b pal (paletteMeta pal) seed
    ⟨toByte c.1, toByte c.2.1, toByte c.2.2, px.a⟩

/-- The "Tribunal Night" palette of `DE_PALETTES`, decoded from its hex
swatches. -/
def tribunalNight : List (ℚ × ℚ × ℚ) :=
  [(12, 16, 24), (21, 32, 48), (30, 50, 72), (58, 36, 40), (84, 56, 56),
   (56, 88, 112), (74, 112, 144), (120, 80, 80), (144, 96, 88),
   (96, 128, 160), (184, 152, 120), (200, 192, 180)]

/-- C1 (bug evaluation): for the pixel (21, 32, 48), exactly equal to the
second swatch of the Tribunal Night palette, the matcher reaches the
dithering branch — the exact match makes `closeness ≈ 0.0016 ≤ 0.88`, so
the ratio test sends it to the dither path with second-swatch
probability `min(0.5, (0.88 - closeness)·1.5) = 0.5` — and for any seed
whose hash draw falls below 0.5 (modelled here by a `Math.sin` value of
0, giving draw 0) it returns the second-nearest swatch (12, 16, 24)
instead of the exact match. This contradicts both the documented intent
("dither between the two nearest to avoid hard banding") and the spec
property that an exact match is always returned: the ratio test is
inverted — it dithers precisely when the nearest swatch is clearly
best. -/
theorem palette_exact_match_dithered :
    choosePaletteColorStyled (fun _ => 0) 21 32 48 tribunalNight
        (paletteMeta tribunalNight) 0 = (12, 16, 24)
    ∧ ((12, 16, 24) : ℚ × ℚ × ℚ) ≠ (21, 32, 48) := by
  constructor
  · set_option maxHeartbeats 2000000 in
    norm_num [choosePaletteColorStyled, paletteMeta, tribunalNight, lumOf,
      chooseStep, swatchDist, distLtOpt, getSwatch, jsModOne,
      List.zip, List.zipWith, List.enum, List.enumFrom, List.foldl, List.map,
      List.getD, List.get?]
  · intro heq
    have h := congrArg Prod.fst heq
    norm_num at h

/-- C6: palette application is deterministic and per-pixel local: for a
fixed `Math.sin` oracle and palette, the output pixel depends only on
the pixel index and that pixel's channel values — the dither draw is the
pure hash `|sin(seed·12.9898)·43758.5453| % 1` of the positional seed,
with no stateful random generator, so runs on equal inputs agree. -/
theorem palette_deterministic (jsSin : ℚ → ℚ) (pal : List (ℚ × ℚ × ℚ))
    (d1 d2 : ℕ → Pixel) (p : ℕ) (hagree : d1 p = d2 p) :
    applyPaletteToImageData jsSin pal d1 p = applyPaletteToImageData jsSin pal d2 p := by
  simp only [applyPaletteToImageData, hagree]

/-- Witness for `palette_deterministic` on two definitionally different
buffers that agree at pixel 0. -/
theorem palette_deterministic_witness :
    applyPaletteToImageData (fun _ => 0) tribunalNight zeroBuf 0
      = applyPaletteToImageData (fun _ => 0) tribunalNight
          (fun j => if j = 0 then ⟨0, 0, 0, 255⟩ else ⟨1, 2, 3, 4⟩) 0 :=
  palette_deterministic (fun _ => 0) tribunalNight zeroBuf
    (fun j => if j = 0 then ⟨0, 0, 0, 255⟩ else ⟨1, 2, 3, 4⟩) 0 (by norm_num [zeroBuf])

/-- C10: `applyPaletteToImageData` leaves every pixel with alpha below 8
completely unchanged, and remaps exactly the pixels with alpha ≥ 8
(writing the styled swatch to the color channels and keeping alpha). -/
theorem palette_skips_transparent (jsSin : ℚ → ℚ) (pal : List (ℚ × ℚ × ℚ))
    (data : ℕ → Pixel) (p : ℕ) :
    ((data p).a < 8 → applyPaletteToImageData jsSin pal data p = data p)
    ∧ (8 ≤ (data p).a →
      applyPaletteToImageData jsSin pal data p
        = ⟨toByte (choosePaletteColorStyled jsSin (data p).r (data p).g (data p).b pal
              (paletteMeta pal)
              (((4 * p : ℕ) : ℚ) + (data p).r * 7 + (data p).g * 13 + (data p).b * 17)).1,
           toByte (choosePaletteColorStyled jsSin (data p).r (data p).g (data p).b pal
              (paletteMeta pal)
              (((4 * p : ℕ) : ℚ) + (data p).r * 7 + (data p).g * 13 + (data p).b * 17)).2.1,
           toByte (choosePaletteColorStyled jsSin (data p).r (data p).g (data p).b pal
              (paletteMeta pal)
              (((4 * p : ℕ) : ℚ) + (data p).r * 7 + (data p).g * 13 + (data p).b * 17)).2.2,
           (data p).a⟩) := by
  constructor
  · intro hlt
    simp only [applyPaletteToImageData]
    rw [if_pos hlt]
  · intro hge
    simp only [applyPaletteToImageData]
    rw [if_neg (not_lt.mpr hge)]

/-- A 1×1 buffer whose pixel is fully transparent. -/
def clearBuf : ℕ → Pixel := fun _ => ⟨10, 20, 30, 0⟩

/-- Witness for `palette_skips_transparent`: a transparent pixel passes
through untouched. -/
theorem palette_skips_transparent_witness :
    applyPaletteToImageData (fun _ => 0) tribunalNight clearBuf 0 = clearBuf 0 :=
  (palette_skips_transparent (fun _ => 0) tribunalNight clearBuf 0).1
    (by norm_num [clearBuf])

/-! ### Orchestrator sequencing (`applyDiscoFilter`, disco-filter.ts) -/

/-- The filter parameters threaded through one pipeline run. -/
structure FilterOptions where
  intensity : ℚ
  posterizeLevels : ℤ
  edgeStrength : ℚ
  brushSize : ℤ
  warmth : ℚ
  saturation : ℚ
  textureStrength : ℚ
  detailPreservation : ℚ
  faceRegions : List FaceRegion

/-- Constant `DEFAULT_OPTIONS` of disco-filter.ts. -/
def DEFAULT_OPTIONS : FilterOptions :=
  ⟨0.85, 5, 0.7, 5, 0.35, 0.60, 0.12, 0.1, []⟩

/-- One stage invocation of the orchestrator, with the parameters the
source computes for it. -/
inductive Stage
  | bilateralS (radius : ℤ) (sigmaSpace sigmaColor : ℚ)
  | oilPaintS (radius : ℤ)
  | brushS (size : ℤ)
  | detailRecoveryS (blurRadius : ℤ) (strength : ℚ)
  | posterizeS (levels : ℤ)
  | cleanupBlurS (radius : ℤ)
  | remapS (warmth saturation : ℚ)
  | edgesMultiS (detail : ℚ)
  | edgesSobelS
  | edgeOverlayS (strength : ℚ)
  | textureS (strength : ℚ)
  | vignetteS (strength : ℚ)
  | blendS (intensity : ℚ)
deriving DecidableEq

/-- The level count passed to `posterize`:
boosted by `Math.round(detail * 2)` (capped at 12) when detail > 0.5. -/
def effectiveLevels (o : FilterOptions) : ℤ :=
  if o.detailPreservation > 0.5
  then min 12 (o.posterizeLevels + jsRound (o.detailPreservation * 2))
  else o.posterizeLevels

/-- The exact stage sequence `applyDiscoFilter` runs, with each stage's
parameters as computed in the source. -/
def pipelineStages (o : FilterOptions) : List Stage :=
  let detail := o.detailPreservation
  [Stage.bilateralS (if detail > 0.6 then 2 else if detail > 0.3 then 3 else 4) 8
      (max 20 (45 - detail * 25)),
   Stage.oilPaintS (if detail > 0.5 then max 2 (o.brushSize - 1)
      else o.brushSize + (if detail < 0.2 then 1 else 0)),
   Stage.brushS (if detail > 0.5 then max 1 (o.brushSize - 2) else max 2 (o.brushSize - 1))]
  ++ (if detail > 0.4
      then [Stage.detailRecoveryS (max 3 (jsRound (4 + (1 - detail) * 3))) (detail * 0.5)]
      else [])
  ++ [Stage.posterizeS (effectiveLevels o)]
  ++ (if detail < 0.5
      then [Stage.cleanupBlurS 1, Stage.posterizeS (effectiveLevels o)] else [])
  ++ [Stage.remapS o.warmth o.saturation,
      (if detail > 0.2 then Stage.edgesMultiS detail else Stage.edgesSobelS),
      Stage.edgeOverlayS (min 1 (o.edgeStrength + detail * 0.15)),
      Stage.textureS o.textureStrength,
      Stage.vignetteS (0.4 * o.intensity)]
  ++ (if o.intensity < 1 then [Stage.blendS o.intensity] else [])

/-- C3 (amended): the cleanup pass (radius-1 box blur followed by a
second posterize with the same effective level count) runs exactly when
`detailPreservation < 0.5` — strictly: at `detailPreservation = 0.5`
no cleanup runs (see the counterexample), and for ≥ 0.5 there is no
cleanup blur anywhere in the pipeline. -/
theorem cleanup_pass_condition (o : FilterOptions) :
    (o.detailPreservation < 0.5 →
      [Stage.posterizeS (effectiveLevels o), Stage.cleanupBlurS 1,
        Stage.posterizeS (effectiveLevels o)].IsInfix (pipelineStages o))
    ∧ (0.5 ≤ o.detailPreservation →
      ∀ r : ℤ, Stage.cleanupBlurS r ∉ pipelineStages o) := by
  constructor
  · intro hd
    simp only [pipelineStages]
    rw [if_pos hd]
    refine ⟨[Stage.bilateralS (if o.detailPreservation > 0.6 then 2
          else if o.detailPreservation > 0.3 then 3 else 4) 8
          (max 20 (45 - o.detailPreservation * 25)),
        Stage.oilPaintS (if o.detailPreservation > 0.5 then max 2 (o.brushSize - 1)
          else o.brushSize + (if o.detailPreservation < 0.2 then 1 else 0)),
        Stage.brushS (if o.detailPreservation > 0.5 then max 1 (o.brushSize - 2)
          else max 2 (o.brushSize - 1))]
        ++ (if o.detailPreservation > 0.4
            then [Stage.detailRecoveryS
              (max 3 (jsRound (4 + (1 - o.detailPreservation) * 3)))
              (o.detailPreservation * 0.5)]
            else []),
      [Stage.remapS o.warmth o.saturation,
        (if o.detailPreservation > 0.2 then Stage.edgesMultiS o.detailPreservation
          else Stage.edgesSobelS),
        Stage.edgeOverlayS (min 1 (o.edgeStrength + o.detailPreservation * 0.15)),
        Stage.textureS o.textureStrength,
        Stage.vignetteS (0.4 * o.intensity)]
        ++ (if o.intensity < 1 then [Stage.blendS o.intensity] else []), ?_⟩
    simp [List.append_assoc]
  · intro hd r hmem
    simp only [pipelineStages] at hmem
    rw [if_neg (not_lt.mpr hd)] at hmem
    split_ifs at hmem <;> simp at hmem

/-- C3 counterexample: at `detailPreservation = 0.5` (which the claim
includes via "≤ 0.5") the source condition `detail < 0.5` is false and
no cleanup blur appears anywhere in the pipeline. -/
theorem cleanup_missing_at_half :
    Stage.cleanupBlurS 1 ∉
      pipelineStages { DEFAULT_OPTIONS with detailPreservation := 0.5 } := by
  intro hmem
  norm_num [pipelineStages, DEFAULT_OPTIONS, effectiveLevels] at hmem
  rcases hmem with h | h | h | h | h | h | h | h | h | h | h <;> exact Stage.noConfusion h

/-- Witness for `cleanup_pass_condition` at the default options
(detail 0.1 < 0.5): the cleanup pass directly follows the posterize
stage. -/
theorem cleanup_pass_condition_witness :
    [Stage.posterizeS (effectiveLevels DEFAULT_OPTIONS), Stage.cleanupBlurS 1,
      Stage.posterizeS (effectiveLevels DEFAULT_OPTIONS)].IsInfix
      (pipelineStages DEFAULT_OPTIONS) :=
  (cleanup_pass_condition DEFAULT_OPTIONS).1 (by norm_num [DEFAULT_OPTIONS])

end Disco
